import Mathlib

/-!
Shallow embedding of the CloudDB status-record service
(`src/entity_status.go`, package goldencheetah).

Modelling conventions:

* Timestamps (`time.Time`) are modelled as `Nat`. The Go zero value
  `time.Time{}` is `0`; the storage backend (App Engine datastore) only
  holds timestamps at or after the zero value, so `Nat` is adequate.
  `time.Parse` returning the zero time on failure is modelled by `Option`
  plus `Option.getD 0` where the Go code discards the error.
* The date-time layouts (`dateTimeLayout`, RFC3339) live outside this file
  (Go standard library / project configuration), so parsing and formatting
  are parameters: `parseDT : String → Option Nat` for `dateTimeLayout`
  parsing on the write path (error discarded), `parseRFC : String →
  Except String Nat` for strict RFC3339 parsing of the `dateFrom` query
  parameter (the `Except` error carries `err.Error()`), and
  `fmtF : Nat → String` for `Format(dateTimeLayout)`.
* The datastore is a list of key/entity pairs plus a fresh-key counter;
  `datastore.Put` with an incomplete key allocates the fresh key.
  `datastore.Query ... Filter("ChangeDate >=", d).Order("-ChangeDate")`
  is the filter of the record list followed by a descending sort.
* Backend failures (`appengine.IsOverQuota`, `isErrFieldMismatch`, other
  errors) are injected as an explicit `Option DBError` next to the rows a
  `GetAll` populated, mirroring that a field-mismatch error still leaves
  the destination slice filled.
* HTTP responses: `addPlainTextError(code, msg)`,
  `WriteHeaderAndEntity(http.StatusOK, statusList)` and
  `WriteHeaderAndEntity(http.StatusCreated, idString)` become the three
  `HTTPResponse` constructors. `getCurrentStatus` indexes
  `statusOnDBList[0]` unconditionally; the run-time out-of-range panic on
  an empty slice is modelled as the `none` result of an `Option`.
-/

/-- Persisted entity (`StatusEntity` in the Go source). -/
structure StatusEntity where
  Status : Int
  ChangeDate : Nat
deriving DecidableEq, Repr

/-- Wire representation (`StatusEntityAPIv1`). -/
structure StatusEntityAPIv1 where
  Id : Nat
  Status : Int
  ChangeDate : String
deriving DecidableEq, Repr

/-- Constant `statusDBEntity` from the source. -/
def statusDBEntity : String := "statusentity"

/-- Constant `statusDBEntityRootKey` from the source. -/
def statusDBEntityRootKey : String := "statusroot"

/-- Errors the storage backend can report. -/
inductive DBError where
  | overQuota
  | fieldMismatch
  | other (msg : String)
deriving DecidableEq, Repr

/-- The text `err.Error()` of a backend error (raw error text). -/
def DBError.text : DBError → String
  | .overQuota => "API error: over quota"
  | .fieldMismatch => "datastore: cannot load field"
  | .other msg => msg

/-- HTTP-style outcomes written by the handlers. -/
inductive HTTPResponse where
  | plainTextError (code : Nat) (msg : String)
  | okList (body : List StatusEntityAPIv1)
  | createdId (body : String)
deriving DecidableEq, Repr

/-- The datastore: fresh-key counter plus keyed records. `datastore.Put`
with an incomplete key allocates a fresh unique integer id. -/
structure DB where
  nextId : Nat
  records : List (Nat × StatusEntity)
deriving DecidableEq, Repr

/-- Key allocation and insertion performed by `datastore.Put`. -/
def DB.put (db : DB) (e : StatusEntity) : Nat × DB :=
  (db.nextId, ⟨db.nextId + 1, (db.nextId, e) :: db.records⟩)

/-- All keys already in the store are below the fresh-key counter
(the backend's unique-allocation guarantee). -/
def DB.keysFresh (db : DB) : Prop :=
  ∀ r ∈ db.records, r.1 < db.nextId

/-- Source `mapAPItoDBStatus`: a non-empty `ChangeDate` string is parsed
with the shared layout, the parse error discarded (`db.ChangeDate, _ =
time.Parse(...)`), so a failed parse leaves the zero time; an empty string
defaults to `time.Now()`, passed here as `now`. -/
def mapAPItoDBStatus (parseDT : String → Option Nat) (now : Nat)
    (api : StatusEntityAPIv1) : StatusEntity :=
  { Status := api.Status
    ChangeDate :=
      if api.ChangeDate ≠ "" then (parseDT api.ChangeDate).getD 0 else now }

/-- Source `mapDBtoAPIStatus`: formats `ChangeDate` with the shared
layout; `Id` is filled in afterwards from the datastore key. -/
def mapDBtoAPIStatus (fmtF : Nat → String) (db : StatusEntity) :
    StatusEntityAPIv1 :=
  { Id := 0, Status := db.Status, ChangeDate := fmtF db.ChangeDate }

/-- One result row mapped back to the API shape with its key, as in the
loops of `getStatus` / `getCurrentStatus` (`statusAPI.Id = k[i].IntID()`). -/
def apiOfRow (fmtF : Nat → String) (r : Nat × StatusEntity) :
    StatusEntityAPIv1 :=
  { mapDBtoAPIStatus fmtF r.2 with Id := r.1 }

/-- Descending `ChangeDate` order used by `Order("-ChangeDate")`. -/
def geDate (a b : Nat × StatusEntity) : Prop :=
  b.2.ChangeDate ≤ a.2.ChangeDate

instance : DecidableRel geDate := fun a b =>
  inferInstanceAs (Decidable (b.2.ChangeDate ≤ a.2.ChangeDate))

instance : IsTotal (Nat × StatusEntity) geDate :=
  ⟨fun a b => le_total b.2.ChangeDate a.2.ChangeDate⟩

instance : IsTrans (Nat × StatusEntity) geDate :=
  ⟨fun _ _ _ hab hbc => le_trans hbc hab⟩

/-- The query of `getStatus`:
`NewQuery(statusDBEntity).Filter("ChangeDate >=", date).Order("-ChangeDate")`
over the store's records. -/
def queryStatus (store : List (Nat × StatusEntity)) (date : Nat) :
    List (Nat × StatusEntity) :=
  List.insertionSort geDate
    (store.filter (fun r => decide (date ≤ r.2.ChangeDate)))

/-- The query of `getCurrentStatus`:
`NewQuery(statusDBEntity).Order("-ChangeDate").Limit(1)`. -/
def latestQueryStatus (store : List (Nat × StatusEntity)) :
    List (Nat × StatusEntity) :=
  (List.insertionSort geDate store).take 1

/-- Source `insertStatus` (body already decoded): maps the API entity to
the DB entity and issues `datastore.Put`; `putErr` is the error the
backend reports, `none` on success. Over-quota yields 503 with the fixed
text, any other error 500 with the raw error text; on success the fresh
key is returned as a decimal string with status 201. Returns the response
together with the resulting store. -/
def insertStatus (parseDT : String → Option Nat) (now : Nat)
    (api : StatusEntityAPIv1) (db : DB) (putErr : Option DBError) :
    HTTPResponse × DB :=
  let statusDB := mapAPItoDBStatus parseDT now api
  match putErr with
  | some DBError.overQuota =>
      (HTTPResponse.plainTextError 503 "503 - Over Quota", db)
  | some err =>
      (HTTPResponse.plainTextError 500 err.text, db)
  | none =>
      let r := db.put statusDB
      (HTTPResponse.createdId (toString r.1), r.2)

/-- The error/result handling shared by the tail of `getStatus`:
`if err != nil && !isErrFieldMismatch(err)` branches to 503/500, otherwise
the rows are mapped back to API shape and written with 200. -/
def respondGetAll (fmtF : Nat → String) (err : Option DBError)
    (rows : List (Nat × StatusEntity)) : HTTPResponse :=
  match err with
  | some DBError.overQuota =>
      HTTPResponse.plainTextError 503 "503 - Over Quota"
  | some (DBError.other msg) =>
      HTTPResponse.plainTextError 500 msg
  | some DBError.fieldMismatch =>
      HTTPResponse.okList (rows.map (apiOfRow fmtF))
  | none =>
      HTTPResponse.okList (rows.map (apiOfRow fmtF))

/-- Source `getStatus`: a non-empty `dateFrom` query parameter is parsed
strictly as RFC3339, rejecting failure with 400 and the message
`err.Error() + " - Correct format is RFC3339"`; an absent parameter uses
the zero time. The backend is then queried at the resulting date;
`backend` returns the reported error and the rows `GetAll` populated. -/
def getStatus (parseRFC : String → Except String Nat) (fmtF : Nat → String)
    (dateString : String)
    (backend : Nat → Option DBError × List (Nat × StatusEntity)) :
    HTTPResponse :=
  match (if dateString ≠ "" then parseRFC dateString else Except.ok 0) with
  | Except.error msg =>
      HTTPResponse.plainTextError 400 (msg ++ " - Correct format is RFC3339")
  | Except.ok date =>
      respondGetAll fmtF (backend date).1 (backend date).2

/-- The tail of `getCurrentStatus`: same error handling as `getStatus`,
but the success path reads `statusOnDBList[0]` and `k[0]` without a bounds
check; on an empty result the Go program panics with an index
out-of-range fault, modelled as `none`. -/
def respondGetFirst (fmtF : Nat → String) (err : Option DBError)
    (rows : List (Nat × StatusEntity)) : Option HTTPResponse :=
  match err with
  | some DBError.overQuota =>
      some (HTTPResponse.plainTextError 503 "503 - Over Quota")
  | some (DBError.other msg) =>
      some (HTTPResponse.plainTextError 500 msg)
  | _ =>
      match rows with
      | [] => none
      | r :: _ => some (HTTPResponse.okList [apiOfRow fmtF r])

/-- Source `getCurrentStatus`: issues the limit-1 descending query and
maps the first row back; `res` is the backend's reported error together
with the rows `GetAll` populated. -/
def getCurrentStatus (fmtF : Nat → String)
    (res : Option DBError × List (Nat × StatusEntity)) :
    Option HTTPResponse :=
  respondGetFirst fmtF res.1 res.2

/-- The well-behaved backend for `getStatus`: no error, rows are exactly
the datastore query results over the given store. -/
def honestBackend (store : List (Nat × StatusEntity)) :
    Nat → Option DBError × List (Nat × StatusEntity) :=
  fun d => (none, queryStatus store d)

/-!
Theorems settling the claims.
-/

/-- C2: a present, unparseable `dateFrom` makes `getStatus` answer 400
with a plain-text message naming the expected RFC3339 format; the result
is the same for every backend, so no storage query is observable, no
crash occurs and no default time is substituted. -/
theorem queryAll_bad_dateFrom_rejected
    (parseRFC : String → Except String Nat) (fmtF : Nat → String)
    (ds msg : String)
    (backend : Nat → Option DBError × List (Nat × StatusEntity))
    (hds : ds ≠ "") (hp : parseRFC ds = Except.error msg) :
    getStatus parseRFC fmtF ds backend =
      HTTPResponse.plainTextError 400 (msg ++ " - Correct format is RFC3339") := by
  simp [getStatus, hds, hp]

/-- Witness for C2 at a concrete unparseable input. -/
theorem queryAll_bad_dateFrom_rejected_witness :
    getStatus (fun _ => Except.error "bad") (fun n => toString n)
      "not-a-date" (honestBackend []) =
      HTTPResponse.plainTextError 400 ("bad" ++ " - Correct format is RFC3339") :=
  queryAll_bad_dateFrom_rejected _ _ _ _ _ (by decide) rfl

/-- C3: submitting with an empty (or absent, which decodes to empty)
`changeDate` persists a record whose `ChangeDate` is exactly the server's
current time `now` at write time. -/
theorem submit_default_changeDate
    (parseDT : String → Option Nat) (now : Nat) (api : StatusEntityAPIv1)
    (db : DB) (h : api.ChangeDate = "") :
    insertStatus parseDT now api db none =
      (HTTPResponse.createdId (toString db.nextId),
       ⟨db.nextId + 1, (db.nextId, ⟨api.Status, now⟩) :: db.records⟩) := by
  simp [insertStatus, mapAPItoDBStatus, DB.put, h]

/-- Witness for C3 at a concrete submission with empty `changeDate`. -/
theorem submit_default_changeDate_witness :
    insertStatus (fun _ => none) 42 ⟨0, 100, ""⟩ ⟨7, []⟩ none =
      (HTTPResponse.createdId (toString 7),
       ⟨8, [(7, ⟨100, 42⟩)]⟩) :=
  submit_default_changeDate _ _ _ _ rfl

/-- C4: submitting with a non-empty `changeDate` the shared layout cannot
parse silently stores the zero timestamp (the parse error is discarded)
and still answers 201 Created, instead of rejecting or defaulting to
`now`. -/
theorem submit_malformed_changeDate_zero
    (parseDT : String → Option Nat) (now : Nat) (api : StatusEntityAPIv1)
    (db : DB) (hne : api.ChangeDate ≠ "")
    (hp : parseDT api.ChangeDate = none) :
    insertStatus parseDT now api db none =
      (HTTPResponse.createdId (toString db.nextId),
       ⟨db.nextId + 1, (db.nextId, ⟨api.Status, 0⟩) :: db.records⟩) := by
  simp [insertStatus, mapAPItoDBStatus, DB.put, hne, hp]

/-- Witness for C4 at a concrete malformed `changeDate`. -/
theorem submit_malformed_changeDate_zero_witness :
    insertStatus (fun _ => none) 42 ⟨0, 300, "garbage"⟩ ⟨7, []⟩ none =
      (HTTPResponse.createdId (toString 7),
       ⟨8, [(7, ⟨300, 0⟩)]⟩) :=
  submit_malformed_changeDate_zero _ _ _ _ (by decide) rfl

/-- C5: on an empty store, `getCurrentStatus` has no well-defined result:
it hits the unchecked index into the empty result slice — modelled as
`none` — and in particular does not return any HTTP response such as an
empty list or a not-found outcome. -/
theorem queryLatest_empty_store_out_of_range (fmtF : Nat → String) :
    getCurrentStatus fmtF (none, latestQueryStatus []) = none ∧
      ∀ resp : HTTPResponse,
        getCurrentStatus fmtF (none, latestQueryStatus []) ≠ some resp := by
  refine ⟨rfl, fun resp h => ?_⟩
  simp [getCurrentStatus, latestQueryStatus, respondGetFirst] at h

/-- C6: for each of the three operations, an over-quota backend error
yields 503 with the fixed text "503 - Over Quota", and any other backend
error (not a read-side field mismatch) yields 500 carrying the backend's
raw error text; every storage error is handled and, the model being
single-shot, no retry is performed. -/
theorem storage_errors_mapped
    (parseDT : String → Option Nat) (parseRFC : String → Except String Nat)
    (fmtF : Nat → String) (now : Nat) (api : StatusEntityAPIv1) (db : DB)
    (store : List (Nat × StatusEntity)) (msg : String) :
    (insertStatus parseDT now api db (some DBError.overQuota)).1 =
        HTTPResponse.plainTextError 503 "503 - Over Quota" ∧
    (insertStatus parseDT now api db (some (DBError.other msg))).1 =
        HTTPResponse.plainTextError 500 msg ∧
    getStatus parseRFC fmtF ""
        (fun d => (some DBError.overQuota, queryStatus store d)) =
        HTTPResponse.plainTextError 503 "503 - Over Quota" ∧
    getStatus parseRFC fmtF ""
        (fun d => (some (DBError.other msg), queryStatus store d)) =
        HTTPResponse.plainTextError 500 msg ∧
    getCurrentStatus fmtF (some DBError.overQuota, latestQueryStatus store) =
        some (HTTPResponse.plainTextError 503 "503 - Over Quota") ∧
    getCurrentStatus fmtF (some (DBError.other msg), latestQueryStatus store) =
        some (HTTPResponse.plainTextError 500 msg) := by
  refine ⟨rfl, rfl, ?_, ?_, rfl, rfl⟩ <;> simp [getStatus, respondGetAll]

/-- C9: a successful submit prepends exactly one new record, leaves every
previously stored record unchanged, answers 201 Created with the freshly
allocated identifier as a decimal string, and — given the backend's
fresh-key guarantee — that identifier differs from every existing key. -/
theorem submit_append_only_created
    (parseDT : String → Option Nat) (now : Nat) (api : StatusEntityAPIv1)
    (db : DB) (hfresh : db.keysFresh) :
    insertStatus parseDT now api db none =
      (HTTPResponse.createdId (toString db.nextId),
       ⟨db.nextId + 1,
        (db.nextId, mapAPItoDBStatus parseDT now api) :: db.records⟩) ∧
    (∀ r ∈ db.records, r.1 ≠ db.nextId) :=
  ⟨rfl, fun r hr => Nat.ne_of_lt (hfresh r hr)⟩

/-- Witness for C9 at a concrete store holding one prior record. -/
theorem submit_append_only_created_witness :
    insertStatus (fun _ => none) 6 ⟨0, 100, ""⟩ ⟨4, [(2, ⟨300, 1⟩)]⟩ none =
      (HTTPResponse.createdId (toString 4),
       ⟨5, (4, mapAPItoDBStatus (fun _ => none) 6 ⟨0, 100, ""⟩) ::
            [(2, ⟨300, 1⟩)]⟩) ∧
    (∀ r ∈ [((2 : Nat), (⟨300, 1⟩ : StatusEntity))], r.1 ≠ 4) :=
  submit_append_only_created _ _ _ _ (by intro r hr; fin_cases hr; decide)

/-- C10: a read-side field-mismatch error is tolerated: `getStatus`
behaves exactly as in the no-error case and returns the rows the backend
populated with a 200 list response, and `getCurrentStatus` likewise
behaves as in the no-error case, returning the first populated row. -/
theorem field_mismatch_tolerated
    (parseRFC : String → Except String Nat) (fmtF : Nat → String)
    (rowsF : Nat → List (Nat × StatusEntity))
    (rows : List (Nat × StatusEntity))
    (r : Nat × StatusEntity) (rest : List (Nat × StatusEntity)) :
    getStatus parseRFC fmtF ""
        (fun d => (some DBError.fieldMismatch, rowsF d)) =
        HTTPResponse.okList ((rowsF 0).map (apiOfRow fmtF)) ∧
    getStatus parseRFC fmtF ""
        (fun d => (some DBError.fieldMismatch, rowsF d)) =
      getStatus parseRFC fmtF "" (fun d => (none, rowsF d)) ∧
    getCurrentStatus fmtF (some DBError.fieldMismatch, rows) =
      getCurrentStatus fmtF (none, rows) ∧
    getCurrentStatus fmtF (some DBError.fieldMismatch, r :: rest) =
      some (HTTPResponse.okList [apiOfRow fmtF r]) := by
  refine ⟨?_, ?_, rfl, rfl⟩ <;> simp [getStatus, respondGetAll]

/-- C7: with `dateFrom` absent (zero time) or valid, `getStatus` answers
200 with exactly the records whose `ChangeDate` is at least the bound —
the result list is the image of a permutation of the filtered store,
sorted with non-increasing `ChangeDate` — and when no record matches it
answers 200 with the empty list, not an error. -/
theorem queryAll_filter_sort
    (parseRFC : String → Except String Nat) (fmtF : Nat → String)
    (store : List (Nat × StatusEntity)) (ds : String) (dF : Nat)
    (hp : (ds = "" ∧ dF = 0) ∨ (ds ≠ "" ∧ parseRFC ds = Except.ok dF)) :
    getStatus parseRFC fmtF ds (honestBackend store) =
      HTTPResponse.okList ((queryStatus store dF).map (apiOfRow fmtF)) ∧
    List.Sorted geDate (queryStatus store dF) ∧
    List.Perm (queryStatus store dF)
        (store.filter (fun r => decide (dF ≤ r.2.ChangeDate))) ∧
    ((∀ r ∈ store, r.2.ChangeDate < dF) →
      getStatus parseRFC fmtF ds (honestBackend store) =
        HTTPResponse.okList []) := by
  have hmain : getStatus parseRFC fmtF ds (honestBackend store) =
      HTTPResponse.okList ((queryStatus store dF).map (apiOfRow fmtF)) := by
    rcases hp with ⟨h1, h2⟩ | ⟨h1, h2⟩
    · subst h1; subst h2; simp [getStatus, honestBackend, respondGetAll]
    · simp [getStatus, h1, h2, honestBackend, respondGetAll]
  refine ⟨hmain, List.sorted_insertionSort geDate _,
    List.perm_insertionSort geDate _, fun h => ?_⟩
  have hfil : store.filter (fun r => decide (dF ≤ r.2.ChangeDate)) = [] := by
    apply List.filter_eq_nil_iff.mpr
    intro a ha
    simpa using Nat.not_le.mpr (h a ha)
  rw [hmain]
  simp [queryStatus, hfil, List.insertionSort]

/-- Witness for C7 at a concrete store and an absent `dateFrom`. -/
theorem queryAll_filter_sort_witness :
    getStatus (fun _ => Except.error "bad") (fun n => toString n) ""
        (honestBackend [(0, ⟨100, 5⟩), (1, ⟨200, 3⟩)]) =
      HTTPResponse.okList
        ((queryStatus [(0, ⟨100, 5⟩), (1, ⟨200, 3⟩)] 0).map
          (apiOfRow (fun n => toString n))) ∧
    List.Sorted geDate (queryStatus [(0, ⟨100, 5⟩), (1, ⟨200, 3⟩)] 0) ∧
    List.Perm (queryStatus [(0, ⟨100, 5⟩), (1, ⟨200, 3⟩)] 0)
        (List.filter (fun r => decide (0 ≤ r.2.ChangeDate))
          [(0, ⟨100, 5⟩), (1, ⟨200, 3⟩)]) ∧
    ((∀ r ∈ [((0 : Nat), (⟨100, 5⟩ : StatusEntity)), (1, ⟨200, 3⟩)],
        r.2.ChangeDate < 0) →
      getStatus (fun _ => Except.error "bad") (fun n => toString n) ""
          (honestBackend [(0, ⟨100, 5⟩), (1, ⟨200, 3⟩)]) =
        HTTPResponse.okList []) :=
  queryAll_filter_sort _ _ _ _ _ (Or.inl ⟨rfl, rfl⟩)

/-- C8: on a non-empty store, `getCurrentStatus` answers a single-element
list holding a store record of maximal `ChangeDate`, and that element is
exactly the first element of an unfiltered `getStatus` (absent
`dateFrom`). -/
theorem queryLatest_matches_first_of_queryAll
    (parseRFC : String → Except String Nat) (fmtF : Nat → String)
    (store : List (Nat × StatusEntity)) (hne : store ≠ []) :
    ∃ (r : Nat × StatusEntity) (rest : List StatusEntityAPIv1),
      getCurrentStatus fmtF (none, latestQueryStatus store) =
        some (HTTPResponse.okList [apiOfRow fmtF r]) ∧
      r ∈ store ∧
      (∀ s ∈ store, s.2.ChangeDate ≤ r.2.ChangeDate) ∧
      getStatus parseRFC fmtF "" (honestBackend store) =
        HTTPResponse.okList (apiOfRow fmtF r :: rest) := by
  have hlne : List.insertionSort geDate store ≠ [] := by
    intro h
    apply hne
    have hlen := List.length_insertionSort geDate store
    rw [h] at hlen
    exact List.length_eq_zero.mp hlen.symm
  obtain ⟨r, tl, hl⟩ := List.exists_cons_of_ne_nil hlne
  refine ⟨r, tl.map (apiOfRow fmtF), ?_, ?_, ?_, ?_⟩
  · simp [getCurrentStatus, latestQueryStatus, respondGetFirst, hl]
  · have hr : r ∈ List.insertionSort geDate store := by
      rw [hl]; exact List.mem_cons_self r tl
    exact (List.perm_insertionSort geDate store).mem_iff.mp hr
  · intro s hs
    have hsl : s ∈ List.insertionSort geDate store :=
      (List.perm_insertionSort geDate store).mem_iff.mpr hs
    rw [hl] at hsl
    rcases List.mem_cons.mp hsl with h | h
    · subst h; exact le_rfl
    · have hsorted := List.sorted_insertionSort geDate store
      rw [hl] at hsorted
      exact List.rel_of_sorted_cons hsorted s h
  · have hfil : store.filter (fun x => decide (0 ≤ x.2.ChangeDate)) = store := by
      simp
    simp [getStatus, honestBackend, respondGetAll, queryStatus, hfil, hl]

/-- Witness for C8 at a concrete two-record store. -/
theorem queryLatest_matches_first_of_queryAll_witness :
    ∃ (r : Nat × StatusEntity) (rest : List StatusEntityAPIv1),
      getCurrentStatus (fun n => toString n)
          (none, latestQueryStatus [(0, ⟨100, 5⟩), (1, ⟨300, 3⟩)]) =
        some (HTTPResponse.okList [apiOfRow (fun n => toString n) r]) ∧
      r ∈ [((0 : Nat), (⟨100, 5⟩ : StatusEntity)), (1, ⟨300, 3⟩)] ∧
      (∀ s ∈ [((0 : Nat), (⟨100, 5⟩ : StatusEntity)), (1, ⟨300, 3⟩)],
        s.2.ChangeDate ≤ r.2.ChangeDate) ∧
      getStatus (fun _ => Except.error "bad") (fun n => toString n) ""
          (honestBackend [(0, ⟨100, 5⟩), (1, ⟨300, 3⟩)]) =
        HTTPResponse.okList (apiOfRow (fun n => toString n) r :: rest) :=
  queryLatest_matches_first_of_queryAll _ _ _ (by decide)

/-- C1: submitting a valid `(status, changeDate)` pair answers 201 with a
freshly allocated identifier distinct from every existing key, and a
subsequent `getStatus` whose valid `dateFrom` is at or before the
submitted `changeDate` returns a 200 list containing a record with that
identifier, the submitted status, and the submitted `changeDate` formatted
in the shared layout. -/
theorem submit_queryAll_round_trip
    (parseDT : String → Option Nat) (parseRFC : String → Except String Nat)
    (fmtF : Nat → String) (api : StatusEntityAPIv1) (db : DB)
    (now t dF : Nat) (ds : String)
    (hne : api.ChangeDate ≠ "") (hpt : parseDT api.ChangeDate = some t)
    (hfresh : db.keysFresh)
    (hds : ds ≠ "") (hpq : parseRFC ds = Except.ok dF) (hdle : dF ≤ t) :
    ∃ (newId : Nat) (db2 : DB) (out : List StatusEntityAPIv1),
      insertStatus parseDT now api db none =
        (HTTPResponse.createdId (toString newId), db2) ∧
      (∀ r ∈ db.records, r.1 ≠ newId) ∧
      getStatus parseRFC fmtF ds (honestBackend db2.records) =
        HTTPResponse.okList out ∧
      (⟨newId, api.Status, fmtF t⟩ : StatusEntityAPIv1) ∈ out := by
  have he : mapAPItoDBStatus parseDT now api = ⟨api.Status, t⟩ := by
    simp [mapAPItoDBStatus, hne, hpt]
  refine ⟨db.nextId,
    ⟨db.nextId + 1, (db.nextId, (⟨api.Status, t⟩ : StatusEntity)) :: db.records⟩,
    (queryStatus ((db.nextId, (⟨api.Status, t⟩ : StatusEntity)) :: db.records) dF).map
      (apiOfRow fmtF),
    ?_, fun r hr => Nat.ne_of_lt (hfresh r hr), ?_, ?_⟩
  · simp [insertStatus, DB.put, he]
  · simp [getStatus, hds, hpq, honestBackend, respondGetAll]
  · have hmem : (db.nextId, (⟨api.Status, t⟩ : StatusEntity)) ∈
        queryStatus
          ((db.nextId, (⟨api.Status, t⟩ : StatusEntity)) :: db.records) dF := by
      unfold queryStatus
      refine (List.perm_insertionSort geDate _).mem_iff.mpr ?_
      refine List.mem_filter.mpr ⟨List.mem_cons_self _ _, ?_⟩
      simpa using hdle
    exact List.mem_map_of_mem (apiOfRow fmtF) hmem

/-- Witness for C1 at a concrete valid submission and filter date. -/
theorem submit_queryAll_round_trip_witness :
    ∃ (newId : Nat) (db2 : DB) (out : List StatusEntityAPIv1),
      insertStatus (fun s => if s = "d" then some 5 else none) 9
          ⟨0, 300, "d"⟩ ⟨4, [(2, ⟨100, 1⟩)]⟩ none =
        (HTTPResponse.createdId (toString newId), db2) ∧
      (∀ r ∈ [((2 : Nat), (⟨100, 1⟩ : StatusEntity))], r.1 ≠ newId) ∧
      getStatus (fun s => if s = "q" then Except.ok 3 else Except.error "bad")
          (fun n => toString n) "q" (honestBackend db2.records) =
        HTTPResponse.okList out ∧
      (⟨newId, 300, toString 5⟩ : StatusEntityAPIv1) ∈ out :=
  submit_queryAll_round_trip _ _ _ _ _ _ _ _ _ (by decide) rfl
    (by intro r hr; fin_cases hr; decide) (by decide) rfl (by decide)
